import Mathlib

/-!
Shallow embedding of `customtkinter/windows/ctk_tk.py` (class `CTk`).

Machine integers are modelled as `Int`/`Nat`; Python floats (the window
scaling factor) are modelled as exact rationals `ℚ`; fallible Python code
(statements that can raise `TypeError`) returns `Option`.
-/

namespace CTk

/-- Python's built-in `round` on an exact rational: round half to even
(banker's rounding), as `round(float)` does in Python 3. -/
def pyRound (q : ℚ) : ℤ :=
  if q - ⌊q⌋ < 1/2 then ⌊q⌋
  else if 1/2 < q - ⌊q⌋ then ⌊q⌋ + 1
  else if ⌊q⌋ % 2 = 0 then ⌊q⌋ else ⌊q⌋ + 1

/-- Python's built-in `int()` applied to a float/rational: truncation toward
zero. -/
def pyInt (q : ℚ) : ℤ :=
  if 0 ≤ q then ⌊q⌋ else ⌈q⌉

/-- The decimal digit character for `d` (`d < 10`; larger values are clipped,
they never occur). -/
def digitChar (d : ℕ) : Char :=
  if d = 0 then '0' else if d = 1 then '1' else if d = 2 then '2'
  else if d = 3 then '3' else if d = 4 then '4' else if d = 5 then '5'
  else if d = 6 then '6' else if d = 7 then '7' else if d = 8 then '8' else '9'

/-- Numeric value of a decimal digit character, as the regex-based parser
reads it (`int(...)` over the matched digits). -/
def digitVal (c : Char) : ℕ := c.toNat - 48

/-- Value of a run of decimal digit characters, most significant first. -/
def digitsToNat (ds : List Char) : ℕ :=
  ds.foldl (fun a c => 10 * a + digitVal c) 0

/-- Decimal digits of `n`, most significant first; `fuel` bounds the
recursion (any `fuel > n` gives the true digits). -/
def natToDigitsAux : ℕ → ℕ → List Char
  | 0, n => [digitChar n]
  | fuel + 1, n =>
    if n < 10 then [digitChar n]
    else natToDigitsAux fuel (n / 10) ++ [digitChar (n % 10)]

/-- Decimal digits of `n`, most significant first. -/
def natToDigits (n : ℕ) : List Char := natToDigitsAux n n

/-- Decimal string of a natural number, as produced by a Python f-string. -/
def natToString (n : ℕ) : String := ⟨natToDigits n⟩

/-- Decimal string of an integer, as produced by a Python f-string:
a leading minus sign for negatives, no sign otherwise. -/
def intToString (m : ℤ) : String :=
  if m < 0 then "-" ++ natToString m.natAbs else natToString m.toNat

/-- Python's f-string rendering of an optional integer: `None` prints as
the string `"None"`. -/
def pyFmtOpt : Option ℤ → String
  | none => "None"
  | some v => intToString v

/-- Maximal run of decimal digits at the head of the character list
(the regex atom `\d+`, which is greedy): returns the digit run and the
remainder. -/
def spanDigits : List Char → List Char × List Char
  | [] => ([], [])
  | c :: cs =>
    if c.isDigit then
      let p := spanDigits cs
      (c :: p.1, p.2)
    else ([], c :: cs)

/-- Consume at most one leading `'+'` (the regex atom `\+{0,1}`). -/
def consumePlus : List Char → List Char
  | [] => []
  | c :: t => if c = '+' then t else c :: t

/-- Consume at most one leading sign (the regex atom `[+-]{0,1}`),
returning the sign as `1` or `-1` together with the remainder. -/
def consumeSign : List Char → ℤ × List Char
  | [] => (1, [])
  | c :: t => if c = '+' then (1, t) else if c = '-' then (-1, t) else (1, c :: t)

/--
The position part of the geometry regex,
`(\+{0,1}([+-]{0,1}\d+)\+{0,1}([+-]{0,1}\d+)){0,1}`, matched greedily at the
head of `cs`.  Mirrors the backtracking of `re.search`: if the second number
fails to match after the first number's maximal digit run, the greedy first
`\d+` gives back its last digit, which then matches as the second number
(possible only when the first run has at least two digits).
-/
def parsePosition (cs : List Char) : Option (ℤ × ℤ) :=
  let r1 := consumePlus cs
  let p1 := consumeSign r1
  let q1 := spanDigits p1.2
  if q1.1.isEmpty then none
  else
    let r4 := consumePlus q1.2
    let p2 := consumeSign r4
    let q2 := spanDigits p2.2
    if q2.1.isEmpty then
      if 2 ≤ q1.1.length then
        some (p1.1 * (digitsToNat q1.1.dropLast : ℤ), (digitsToNat [q1.1.getLastD '0'] : ℤ))
      else none
    else
      some (p1.1 * (digitsToNat q1.1 : ℤ), p2.1 * (digitsToNat q2.1 : ℤ))

/-- The size part of the geometry regex, `((\d+)x(\d+)){0,1}`, matched
greedily at the head of `cs`: returns the parsed `(width, height)` (or `none`)
together with the remainder the position part starts from.  When the size
part does not match, the position part starts from the whole string again. -/
def parseSizePart (cs : List Char) : Option (ℤ × ℤ) × List Char :=
  let a1 := spanDigits cs
  if a1.1.isEmpty then (none, cs)
  else
    match a1.2 with
    | 'x' :: r2 =>
      let a2 := spanDigits r2
      if a2.1.isEmpty then (none, cs)
      else (some ((digitsToNat a1.1 : ℤ), (digitsToNat a2.1 : ℤ)), a2.2)
    | _ => (none, cs)

/--
`CTk._parse_geometry_string`: applies
`re.search(r"((\d+)x(\d+)){0,1}(\+{0,1}([+-]{0,1}\d+)\+{0,1}([+-]{0,1}\d+)){0,1}", s)`
and returns `(width, height, x, y)` from groups 2, 3, 5, 6.  Since every part
of the pattern is optional, the search always matches at position 0 (possibly
as the empty match, leaving every group `None`).
-/
def parseGeometryString (g : String) : Option ℤ × Option ℤ × Option ℤ × Option ℤ :=
  let sr := parseSizePart g.data
  match sr.1, parsePosition sr.2 with
  | some wh, some xy => (some wh.1, some wh.2, some xy.1, some xy.2)
  | some wh, none => (some wh.1, some wh.2, none, none)
  | none, some xy => (none, none, some xy.1, some xy.2)
  | none, none => (none, none, none, none)

/-- The `"{w}x{h}"` rendering used by `_apply_geometry_scaling` /
`_reverse_geometry_scaling`. -/
def fmtSize (w h : ℤ) : String := intToString w ++ "x" ++ intToString h

/-- The `"+{x}+{y}"` rendering used by `_apply_geometry_scaling` /
`_reverse_geometry_scaling`. -/
def fmtPos (x y : ℤ) : String := "+" ++ intToString x ++ "+" ++ intToString y

/--
`CTk._apply_geometry_scaling`: scales the size part of a geometry string by
`scaling`, leaving any position part untouched.  Returns `none` where the
Python code raises `TypeError` (evaluating `round(None * scaling)` when the
branch needs a width/height that did not parse).
-/
def applyGeometryScaling (scaling : ℚ) (g : String) : Option String :=
  let p := parseGeometryString g
  let width := p.1
  let height := p.2.1
  let x := p.2.2.1
  let y := p.2.2.2
  if x = none ∧ y = none then
    match width, height with
    | some w, some h =>
      some (fmtSize (pyRound ((w : ℚ) * scaling)) (pyRound ((h : ℚ) * scaling)))
    | _, _ => none
  else if width = none ∧ height = none then
    some ("+" ++ pyFmtOpt x ++ "+" ++ pyFmtOpt y)
  else
    match width, height with
    | some w, some h =>
      some (fmtSize (pyRound ((w : ℚ) * scaling)) (pyRound ((h : ℚ) * scaling))
            ++ "+" ++ pyFmtOpt x ++ "+" ++ pyFmtOpt y)
    | _, _ => none

/--
`CTk._reverse_geometry_scaling`: divides the size part of a geometry string
by `scaling`, leaving any position part untouched.  Returns `none` where the
Python code raises `TypeError`.
-/
def reverseGeometryScaling (scaling : ℚ) (g : String) : Option String :=
  let p := parseGeometryString g
  let width := p.1
  let height := p.2.1
  let x := p.2.2.1
  let y := p.2.2.2
  if x = none ∧ y = none then
    match width, height with
    | some w, some h =>
      some (fmtSize (pyRound ((w : ℚ) / scaling)) (pyRound ((h : ℚ) / scaling)))
    | _, _ => none
  else if width = none ∧ height = none then
    some ("+" ++ pyFmtOpt x ++ "+" ++ pyFmtOpt y)
  else
    match width, height with
    | some w, some h =>
      some (fmtSize (pyRound ((w : ℚ) / scaling)) (pyRound ((h : ℚ) / scaling))
            ++ "+" ++ pyFmtOpt x ++ "+" ++ pyFmtOpt y)
    | _, _ => none

/-- `CTk._apply_window_scaling` on an integer value: `int(value * scaling)`. -/
def applyWindowScaling (scaling : ℚ) (value : ℤ) : ℤ :=
  pyInt ((value : ℚ) * scaling)

/-- The logical window state owned by a `CTk` instance (`_current_width`,
`_current_height`, `_min_width`, `_min_height`, `_max_width`, `_max_height`,
`_window_scaling`, `_block_update_dimensions_event`). -/
structure WindowState where
  currentWidth : ℤ
  currentHeight : ℤ
  minWidth : ℤ
  minHeight : ℤ
  maxWidth : ℤ
  maxHeight : ℤ
  windowScaling : ℚ
  blockUpdateDimensionsEvent : Bool
  deriving DecidableEq, Repr

/-- The state set up by `CTk.__init__`: size 600x500, min 0, max 1,000,000,
dimension-event blocking off. -/
def initialWindowState (scaling : ℚ) : WindowState :=
  { currentWidth := 600, currentHeight := 500
    minWidth := 0, minHeight := 0
    maxWidth := 1000000, maxHeight := 1000000
    windowScaling := scaling
    blockUpdateDimensionsEvent := false }

/-- A physical-pixel call issued to the base toolkit
(`super().minsize(...)`, `super().maxsize(...)`, `super().geometry(...)`). -/
inductive TkCall where
  | tkMinsize (w h : ℤ)
  | tkMaxsize (w h : ℤ)
  | tkGeometry (g : String)
  deriving DecidableEq, Repr

/-- `CTk.minsize`: stores the new logical minimum, clamps the current logical
size up to it, and issues the physically scaled minsize call. -/
def minsize (st : WindowState) (width height : ℤ) : WindowState × TkCall :=
  let st1 := { st with minWidth := width, minHeight := height }
  let st2 := if st1.currentWidth < width then { st1 with currentWidth := width } else st1
  let st3 := if st2.currentHeight < height then { st2 with currentHeight := height } else st2
  (st3, TkCall.tkMinsize (applyWindowScaling st3.windowScaling st3.minWidth)
                         (applyWindowScaling st3.windowScaling st3.minHeight))

/-- `CTk.maxsize`: stores the new logical maximum, clamps the current logical
size down to it, and issues the physically scaled maxsize call. -/
def maxsize (st : WindowState) (width height : ℤ) : WindowState × TkCall :=
  let st1 := { st with maxWidth := width, maxHeight := height }
  let st2 := if width < st1.currentWidth then { st1 with currentWidth := width } else st1
  let st3 := if height < st2.currentHeight then { st2 with currentHeight := height } else st2
  (st3, TkCall.tkMaxsize (applyWindowScaling st3.windowScaling st3.maxWidth)
                         (applyWindowScaling st3.windowScaling st3.maxHeight))

/-- The set-branch of `CTk.geometry` (argument is not `None`): issues the
scaled geometry call and, when both width and height parsed, stores the
current size bounded between min and max.  `none` models the `TypeError`
raised inside `_apply_geometry_scaling` for strings where neither the size
nor the position part parsed. -/
def geometrySet (st : WindowState) (g : String) : Option (WindowState × TkCall) :=
  match applyGeometryScaling st.windowScaling g with
  | none => none
  | some phys =>
    let p := parseGeometryString g
    let st' :=
      match p.1, p.2.1 with
      | some w, some h =>
        { st with currentWidth := max st.minWidth (min w st.maxWidth),
                  currentHeight := max st.minHeight (min h st.maxHeight) }
      | _, _ => st
    some (st', TkCall.tkGeometry phys)

/-- Outcome of a `CTk.geometry` call: either a state change plus the physical
call issued, or (query form) the logical geometry string returned. -/
inductive GeometryResult where
  | set (st : WindowState) (call : TkCall)
  | queried (g : String)
  deriving DecidableEq, Repr

/-- `CTk.geometry`: with a string argument (`is not None`, so also for the
empty string) it sets; with `None` it queries, reverse-scaling the geometry
string reported by the base toolkit (`tkReported`). -/
def geometry (st : WindowState) (arg : Option String) (tkReported : String) :
    Option GeometryResult :=
  match arg with
  | some g =>
    match geometrySet st g with
    | some sc => some (GeometryResult.set sc.1 sc.2)
    | none => none
  | none =>
    match reverseGeometryScaling st.windowScaling tkReported with
    | some out => some (GeometryResult.queried out)
    | none => none

/-- `CTk._update_dimensions_event`: unless blocked, recompute the logical
size from the detected physical size. -/
def updateDimensionsEvent (st : WindowState) (detectedWidth detectedHeight : ℤ) :
    WindowState :=
  if st.blockUpdateDimensionsEvent then st
  else
    { st with currentWidth := pyRound ((detectedWidth : ℚ) / st.windowScaling),
              currentHeight := pyRound ((detectedHeight : ℚ) / st.windowScaling) }

/-- Result of `CTk._set_scaling`: the new state, the three physical calls
forcing the current size, and the two deferred timers (`after(400, ...)` for
`_set_scaled_min_max`, `after(100, ...)` for releasing the dimension-event
block). -/
structure ScaleChangeResult where
  newState : WindowState
  forcedCalls : List TkCall
  scaledMinMaxDelayMs : ℕ
  releaseBlockDelayMs : ℕ
  deriving DecidableEq, Repr

/-- `CTk._set_scaling`: store the new scaling factor, block the dimension
sync event, then force the window to the current size at the new scale via
minsize, maxsize and geometry; the true min/max are re-applied by
`_set_scaled_min_max` after 400 ms, and the block is released after 100 ms. -/
def setScaling (st : WindowState) (newWindowScaling : ℚ) : ScaleChangeResult :=
  let st1 := { st with windowScaling := newWindowScaling }
  let st2 := { st1 with blockUpdateDimensionsEvent := true }
  let sw := applyWindowScaling st2.windowScaling st2.currentWidth
  let sh := applyWindowScaling st2.windowScaling st2.currentHeight
  { newState := st2
    forcedCalls := [TkCall.tkMinsize sw sh, TkCall.tkMaxsize sw sh,
                    TkCall.tkGeometry (fmtSize sw sh)]
    scaledMinMaxDelayMs := 400
    releaseBlockDelayMs := 100 }

/-- `CTk._set_scaled_min_max`: re-apply the stored logical min/max bounds at
the current scale.  (The source guards on the fields being `is not None`; in
this integer model they always are, so both calls are issued.) -/
def setScaledMinMax (st : WindowState) : List TkCall :=
  [TkCall.tkMinsize (applyWindowScaling st.windowScaling st.minWidth)
                    (applyWindowScaling st.windowScaling st.minHeight),
   TkCall.tkMaxsize (applyWindowScaling st.windowScaling st.maxWidth)
                    (applyWindowScaling st.windowScaling st.maxHeight)]

/-- One window-state mutating operation (`minsize`, `maxsize`, or the set
form of `geometry`). -/
inductive WinOp where
  | opMinsize (w h : ℤ)
  | opMaxsize (w h : ℤ)
  | opGeometry (g : String)
  deriving DecidableEq, Repr

/-- Apply one mutating operation to the window state, returning the new
state and the physical call issued, or `none` when the operation raises. -/
def applyOp (st : WindowState) : WinOp → Option (WindowState × TkCall)
  | WinOp.opMinsize w h => some (minsize st w h)
  | WinOp.opMaxsize w h => some (maxsize st w h)
  | WinOp.opGeometry g => geometrySet st g

/-- The spec's size invariant: the current logical size lies within the
stored min/max bounds. -/
def sizeInvariant (st : WindowState) : Prop :=
  st.minWidth ≤ st.currentWidth ∧ st.currentWidth ≤ st.maxWidth ∧
  st.minHeight ≤ st.currentHeight ∧ st.currentHeight ≤ st.maxHeight

instance (st : WindowState) : Decidable (sizeInvariant st) := by
  unfold sizeInvariant; infer_instance

/-- Side condition under which a mutating operation keeps the bounds
consistent: a new minimum must not exceed the stored maximum, and a new
maximum must not fall below the stored minimum. -/
def opCompatible (st : WindowState) : WinOp → Prop
  | WinOp.opMinsize w h => w ≤ st.maxWidth ∧ h ≤ st.maxHeight
  | WinOp.opMaxsize w h => st.minWidth ≤ w ∧ st.minHeight ≤ h
  | WinOp.opGeometry _ => True

instance (st : WindowState) (op : WinOp) : Decidable (opCompatible st op) := by
  unfold opCompatible; cases op <;> infer_instance

/-- An action performed by `CTk._windows_set_titlebar_color` on the window,
in order: hide, synchronous display pass, the native dark-mode attribute
change (the `DwmSetWindowAttribute` block, with its internal two-identifier
fallback and exception guard), and the state-restoring calls. -/
inductive TitlebarAction where
  | withdrawAct
  | updateAct
  | setAttribute (value : ℤ)
  | deiconifyAct
  | iconifyAct
  | setStateAct (s : String)
  deriving DecidableEq, Repr

/-- Python's `str.lower()` for the ASCII mode names used here: lowercase
each character. -/
def pyLower (s : String) : String := ⟨s.data.map Char.toLower⟩

/-- `CTk._windows_set_titlebar_color` on the Windows platform with header
manipulation enabled, as the sequence of window actions it performs.
`windowExists` is `self._window_exists` and `stateBefore` is what
`self.state()` reports when the window exists.  The hide condition is the
source's `state != "iconic" or state != "withdrawn"`, kept verbatim. -/
def windowsSetTitlebarColor (windowExists : Bool) (stateBefore : String)
    (colorMode : String) : List TitlebarAction :=
  let hideActions : List TitlebarAction :=
    if windowExists then
      if stateBefore ≠ "iconic" ∨ stateBefore ≠ "withdrawn" then
        [TitlebarAction.withdrawAct]
      else []
    else [TitlebarAction.withdrawAct, TitlebarAction.updateAct]
  let value : Option ℤ :=
    if pyLower colorMode = "dark" then some 1
    else if pyLower colorMode = "light" then some 0
    else none
  match value with
  | none => hideActions
  | some v =>
    let restoreActions : List TitlebarAction :=
      if windowExists then
        if stateBefore = "normal" then [TitlebarAction.deiconifyAct]
        else if stateBefore = "iconic" then [TitlebarAction.iconifyAct]
        else if stateBefore = "zoomed" then [TitlebarAction.setStateAct "zoomed"]
        else [TitlebarAction.setStateAct stateBefore]
      else []
    hideActions ++ [TitlebarAction.setAttribute v] ++ restoreActions

/-- The per-window configuration state touched by `CTk.configure`/`CTk.cget`;
`V` is the type of option values (`_fg_color` stores the given value as-is). -/
structure CTkConfig (V : Type) where
  fgColor : V
  deriving DecidableEq, Repr

/-- The keys of `CTk._valid_tk_configure_arguments`. -/
def validTkConfigureArguments : List String :=
  ["bd", "borderwidth", "class", "menu", "relief", "screen",
   "use", "container", "cursor", "height",
   "highlightthickness", "padx", "pady", "takefocus", "visual", "width"]

/-- `CTk.configure`: a present `fg_color` option is stored (its background
re-application and best-effort child propagation are toolkit side effects
outside this state); keys in `_valid_tk_configure_arguments` are passed
through to the base toolkit (`pop_from_dict_by_set`); then any keys still
remaining make the call fail with an error naming them.

The helpers `pop_from_dict_by_set` and `check_kwargs_empty` live in
`utility_functions.py`, which is not part of the sources; their behavior here
is modelled from the spec: the former moves the allow-listed keys out of the
keyword dict, the latter raises an error naming the offending key(s) when the
dict is not empty. -/
def configure {V : Type} (st : CTkConfig V) (kwargs : List (String × V)) :
    Except (List String) (CTkConfig V × List (String × V)) :=
  let fgEntry := kwargs.lookup "fg_color"
  let st2 : CTkConfig V :=
    match fgEntry with
    | some c => { st with fgColor := c }
    | none => st
  let kw1 : List (String × V) :=
    match fgEntry with
    | some _ => kwargs.filter (fun p : String × V => p.1 ≠ "fg_color")
    | none => kwargs
  let passed := kw1.filter (fun p : String × V => validTkConfigureArguments.contains p.1)
  let remaining := kw1.filter (fun p : String × V => !validTkConfigureArguments.contains p.1)
  if remaining.isEmpty then Except.ok (st2, passed)
  else Except.error (remaining.map Prod.fst)

/-- Result of `CTk.cget`: either the value stored on the `CTk` object itself
or a delegation to the base toolkit's `cget`. -/
inductive CgetResult (V : Type) where
  | stored (v : V)
  | delegated (attributeName : String)
  deriving DecidableEq, Repr

/-- `CTk.cget`: `fg_color` is answered from the stored value, everything
else is delegated to the base toolkit. -/
def cget {V : Type} (st : CTkConfig V) (attributeName : String) : CgetResult V :=
  if attributeName = "fg_color" then CgetResult.stored st.fgColor
  else CgetResult.delegated attributeName

/-! ### Basic facts about rounding and truncation -/

theorem abs_pyRound_sub_le (q : ℚ) : |(pyRound q : ℚ) - q| ≤ 1/2 := by
  have h0 : (0 : ℚ) ≤ q - ⌊q⌋ := by
    have := Int.floor_le q; linarith
  have h1 : q - ⌊q⌋ < 1 := by
    have := Int.lt_floor_add_one q; linarith
  unfold pyRound
  split_ifs with hlt hgt hev <;>
    · rw [abs_le]
      constructor <;> push_cast <;> linarith

theorem floor_le_pyRound (q : ℚ) : ⌊q⌋ ≤ pyRound q := by
  unfold pyRound
  split_ifs <;> omega

theorem pyInt_intCast (m : ℤ) : pyInt ((m : ℤ) : ℚ) = m := by
  unfold pyInt
  split_ifs <;> simp

theorem applyWindowScaling_eq_of_mul_eq (s : ℚ) (v m : ℤ)
    (h : (v : ℚ) * s = (m : ℚ)) : applyWindowScaling s v = m := by
  unfold applyWindowScaling
  rw [h, pyInt_intCast]

/-! ### Decimal printing round-trips through the digit parser -/

theorem digitChar_isDigit (d : ℕ) : (digitChar d).isDigit = true := by
  unfold digitChar
  split_ifs <;> decide

theorem digitVal_digitChar (d : ℕ) (hd : d < 10) : digitVal (digitChar d) = d := by
  unfold digitChar
  split_ifs with h0 h1 h2 h3 h4 h5 h6 h7 h8
  · subst h0; decide
  · subst h1; decide
  · subst h2; decide
  · subst h3; decide
  · subst h4; decide
  · subst h5; decide
  · subst h6; decide
  · subst h7; decide
  · subst h8; decide
  · have h9 : d = 9 := by omega
    subst h9; decide

theorem digitsToNat_singleton (c : Char) : digitsToNat [c] = digitVal c := by
  unfold digitsToNat
  simp [List.foldl]

theorem digitsToNat_append_singleton (l : List Char) (c : Char) :
    digitsToNat (l ++ [c]) = 10 * digitsToNat l + digitVal c := by
  unfold digitsToNat
  rw [List.foldl_append]
  rfl

theorem natToDigitsAux_spec (fuel : ℕ) :
    ∀ n, n ≤ fuel →
      natToDigitsAux fuel n ≠ [] ∧
      (∀ c ∈ natToDigitsAux fuel n, c.isDigit = true) ∧
      digitsToNat (natToDigitsAux fuel n) = n := by
  induction fuel with
  | zero =>
    intro n hn
    have h0 : n = 0 := Nat.le_zero.mp hn
    subst h0
    refine ⟨by simp [natToDigitsAux], ?_, ?_⟩
    · intro c hc
      simp [natToDigitsAux] at hc
      subst hc
      exact digitChar_isDigit 0
    · rw [show natToDigitsAux 0 0 = [digitChar 0] from rfl,
        digitsToNat_singleton, digitVal_digitChar 0 (by omega)]
  | succ fuel ih =>
    intro n hn
    by_cases h10 : n < 10
    · refine ⟨by simp [natToDigitsAux, h10], ?_, ?_⟩
      · intro c hc
        simp [natToDigitsAux, h10] at hc
        subst hc
        exact digitChar_isDigit n
      · rw [show natToDigitsAux (fuel + 1) n = [digitChar n] from by
          simp [natToDigitsAux, h10], digitsToNat_singleton, digitVal_digitChar n h10]
    · have hge : 10 ≤ n := Nat.not_lt.mp h10
      have hlt : n / 10 < n := Nat.div_lt_self (by omega) (by omega)
      obtain ⟨hne, hdig, hval⟩ := ih (n / 10) (by omega)
      have hrw : natToDigitsAux (fuel + 1) n
          = natToDigitsAux fuel (n / 10) ++ [digitChar (n % 10)] := by
        simp [natToDigitsAux, h10]
      rw [hrw]
      refine ⟨by simp, ?_, ?_⟩
      · intro c hc
        rcases List.mem_append.mp hc with h | h
        · exact hdig c h
        · simp at h
          subst h
          exact digitChar_isDigit _
      · rw [digitsToNat_append_singleton, hval,
          digitVal_digitChar _ (Nat.mod_lt _ (by omega))]
        omega

theorem natToDigits_ne_nil (n : ℕ) : natToDigits n ≠ [] :=
  (natToDigitsAux_spec n n le_rfl).1

theorem natToDigits_isDigit (n : ℕ) : ∀ c ∈ natToDigits n, c.isDigit = true :=
  (natToDigitsAux_spec n n le_rfl).2.1

theorem digitsToNat_natToDigits (n : ℕ) : digitsToNat (natToDigits n) = n :=
  (natToDigitsAux_spec n n le_rfl).2.2

/-! ### The digit scanner on printed numbers -/

theorem spanDigits_append (l r : List Char) (hl : ∀ c ∈ l, c.isDigit = true)
    (hr : ∀ c t, r = c :: t → c.isDigit = false) :
    spanDigits (l ++ r) = (l, r) := by
  induction l with
  | nil =>
    simp only [List.nil_append]
    cases r with
    | nil => rfl
    | cons c t =>
      have := hr c t rfl
      simp [spanDigits, this]
  | cons c cs ihl =>
    have hc : c.isDigit = true := hl c (List.mem_cons_self c cs)
    have hrest := ihl (fun d hd => hl d (List.mem_cons_of_mem c hd))
    simp [spanDigits, hc, hrest]

theorem spanDigits_of_all (l : List Char) (hl : ∀ c ∈ l, c.isDigit = true) :
    spanDigits l = (l, []) := by
  have := spanDigits_append l [] hl (fun c t h => nomatch h)
  simpa using this

theorem isDigit_ne_plus {c : Char} (h : c.isDigit = true) : ¬(c = '+') := by
  rintro rfl
  exact absurd h (by decide)

theorem isDigit_ne_minus {c : Char} (h : c.isDigit = true) : ¬(c = '-') := by
  rintro rfl
  exact absurd h (by decide)

theorem stringData_append (s t : String) : (s ++ t).data = s.data ++ t.data := rfl

theorem intToString_data_of_nonneg (m : ℤ) (h : 0 ≤ m) :
    (intToString m).data = natToDigits m.toNat := by
  unfold intToString
  rw [if_neg (not_lt.mpr h)]
  rfl

theorem intToString_data_of_neg (m : ℤ) (h : m < 0) :
    (intToString m).data = '-' :: natToDigits m.natAbs := by
  unfold intToString
  rw [if_pos h]
  rfl

theorem consumeSign_intToString (m : ℤ) (rest : List Char) :
    ∃ s ds, consumeSign ((intToString m).data ++ rest) = (s, ds ++ rest) ∧
      ds ≠ [] ∧ (∀ c ∈ ds, c.isDigit = true) ∧ s * (digitsToNat ds : ℤ) = m := by
  rcases le_or_lt 0 m with hm | hm
  · refine ⟨1, natToDigits m.toNat, ?_, natToDigits_ne_nil _, natToDigits_isDigit _, ?_⟩
    · rw [intToString_data_of_nonneg m hm]
      obtain ⟨d, t, hd⟩ := List.exists_cons_of_ne_nil (natToDigits_ne_nil m.toNat)
      rw [hd, List.cons_append]
      have hdig : d.isDigit = true := by
        apply natToDigits_isDigit m.toNat
        rw [hd]; exact List.mem_cons_self d t
      simp [consumeSign, isDigit_ne_plus hdig, isDigit_ne_minus hdig]
    · rw [digitsToNat_natToDigits, one_mul]
      exact_mod_cast Int.toNat_of_nonneg hm
  · refine ⟨-1, natToDigits m.natAbs, ?_, natToDigits_ne_nil _, natToDigits_isDigit _, ?_⟩
    · rw [intToString_data_of_neg m hm, List.cons_append]
      simp [consumeSign]
    · rw [digitsToNat_natToDigits]
      omega

theorem parsePosition_nil : parsePosition [] = none := rfl

theorem parsePosition_fmtPos (x y : ℤ) :
    parsePosition (fmtPos x y).data = some (x, y) := by
  obtain ⟨s1, ds1, hcs1, hne1, hdig1, hval1⟩ :=
    consumeSign_intToString x ('+' :: (intToString y).data)
  obtain ⟨s2, ds2, hcs2, hne2, hdig2, hval2⟩ := consumeSign_intToString y []
  simp only [List.append_nil] at hcs2
  have hdata : (fmtPos x y).data
      = '+' :: ((intToString x).data ++ '+' :: (intToString y).data) := by
    show ((("+" ++ intToString x) ++ "+") ++ intToString y).data = _
    rw [stringData_append, stringData_append, stringData_append]
    simp
  have hspan1 : spanDigits (ds1 ++ '+' :: (intToString y).data)
      = (ds1, '+' :: (intToString y).data) :=
    spanDigits_append _ _ hdig1 (by rintro c t hct; cases hct; decide)
  have hspan2 : spanDigits ds2 = (ds2, []) := spanDigits_of_all _ hdig2
  have hps1 : ds1.isEmpty = false := by
    cases h : ds1 with
    | nil => exact absurd h hne1
    | cons a l => rfl
  have hps2 : ds2.isEmpty = false := by
    cases h : ds2 with
    | nil => exact absurd h hne2
    | cons a l => rfl
  rw [hdata]
  simp only [parsePosition]
  rw [show consumePlus ('+' :: ((intToString x).data ++ '+' :: (intToString y).data))
      = (intToString x).data ++ '+' :: (intToString y).data from by simp [consumePlus]]
  rw [hcs1]
  simp only []
  rw [hspan1]
  simp only [hps1, Bool.false_eq_true, if_false]
  rw [show consumePlus ('+' :: (intToString y).data) = (intToString y).data from by
    simp [consumePlus]]
  rw [hcs2]
  simp only []
  rw [hspan2]
  simp only [hps2, Bool.false_eq_true, if_false]
  rw [hval1, hval2]

theorem parseSizePart_sizeChars (w h : ℕ) :
    parseSizePart (natToDigits w ++ 'x' :: natToDigits h) = (some ((w : ℤ), (h : ℤ)), []) := by
  have hspan1 : spanDigits (natToDigits w ++ 'x' :: natToDigits h)
      = (natToDigits w, 'x' :: natToDigits h) :=
    spanDigits_append _ _ (natToDigits_isDigit w) (by rintro c t hct; cases hct; decide)
  have hspan2 : spanDigits (natToDigits h) = (natToDigits h, []) :=
    spanDigits_of_all _ (natToDigits_isDigit h)
  have hw : (natToDigits w).isEmpty = false := by
    cases hc : natToDigits w with
    | nil => exact absurd hc (natToDigits_ne_nil w)
    | cons a l => rfl
  have hh : (natToDigits h).isEmpty = false := by
    cases hc : natToDigits h with
    | nil => exact absurd hc (natToDigits_ne_nil h)
    | cons a l => rfl
  simp only [parseSizePart]
  rw [hspan1]
  simp only [hw, Bool.false_eq_true, if_false]
  rw [hspan2]
  simp only [hh, Bool.false_eq_true, if_false]
  rw [digitsToNat_natToDigits, digitsToNat_natToDigits]

theorem parseGeometryString_sizeString (w h : ℕ) :
    parseGeometryString (natToString w ++ "x" ++ natToString h)
      = (some (w : ℤ), some (h : ℤ), none, none) := by
  have hdata : (natToString w ++ "x" ++ natToString h).data
      = natToDigits w ++ 'x' :: natToDigits h := by
    show ((natToString w ++ "x") ++ natToString h).data = _
    rw [stringData_append, stringData_append]
    simp [natToString, natToDigits]
  simp only [parseGeometryString, hdata, parseSizePart_sizeChars]
  rfl

theorem parseGeometryString_fmtSize (a b : ℤ) (ha : 0 ≤ a) (hb : 0 ≤ b) :
    parseGeometryString (fmtSize a b) = (some a, some b, none, none) := by
  have hfa : intToString a = natToString a.toNat := by
    unfold intToString; rw [if_neg (not_lt.mpr ha)]
  have hfb : intToString b = natToString b.toNat := by
    unfold intToString; rw [if_neg (not_lt.mpr hb)]
  have : fmtSize a b = natToString a.toNat ++ "x" ++ natToString b.toNat := by
    rw [fmtSize, hfa, hfb]
  rw [this, parseGeometryString_sizeString, Int.toNat_of_nonneg ha, Int.toNat_of_nonneg hb]

theorem parseGeometryString_fmtPos (x y : ℤ) :
    parseGeometryString (fmtPos x y) = (none, none, some x, some y) := by
  have hdata : (fmtPos x y).data
      = '+' :: ((intToString x).data ++ '+' :: (intToString y).data) := by
    show ((("+" ++ intToString x) ++ "+") ++ intToString y).data = _
    rw [stringData_append, stringData_append, stringData_append]
    simp
  have hsize : parseSizePart (fmtPos x y).data = (none, (fmtPos x y).data) := by
    rw [hdata]
    simp [parseSizePart, spanDigits]
  simp only [parseGeometryString, hsize, parsePosition_fmtPos x y]

/-! ### The scaling transforms on canonical geometry strings -/

/-- The size-only geometry string `"{w}x{h}"` as a Python f-string renders
the two positive integers. -/
def sizeGeometryString (w h : ℕ) : String :=
  natToString w ++ "x" ++ natToString h

theorem applyGeometryScaling_sizeString (s : ℚ) (w h : ℕ) :
    applyGeometryScaling s (sizeGeometryString w h)
      = some (fmtSize (pyRound ((w : ℚ) * s)) (pyRound ((h : ℚ) * s))) := by
  simp only [applyGeometryScaling, sizeGeometryString, parseGeometryString_sizeString]
  push_cast
  simp

theorem reverseGeometryScaling_fmtSize (s : ℚ) (a b : ℤ) (ha : 0 ≤ a) (hb : 0 ≤ b) :
    reverseGeometryScaling s (fmtSize a b)
      = some (fmtSize (pyRound ((a : ℚ) / s)) (pyRound ((b : ℚ) / s))) := by
  simp only [reverseGeometryScaling, parseGeometryString_fmtSize a b ha hb]
  simp

theorem applyGeometryScaling_fmtPos (s : ℚ) (x y : ℤ) :
    applyGeometryScaling s (fmtPos x y) = some (fmtPos x y) := by
  simp only [applyGeometryScaling, parseGeometryString_fmtPos]
  simp [pyFmtOpt, fmtPos]

/-! ### Arithmetic of the scale round-trip -/

theorem pyRound_nonneg_of_half_le {q : ℚ} (hq : 0 ≤ q) : 0 ≤ pyRound q := by
  have h := floor_le_pyRound q
  have h2 : (0 : ℤ) ≤ ⌊q⌋ := Int.floor_nonneg.mpr hq
  omega

theorem pyRound_mul_div_roundtrip (w : ℕ) (s : ℚ) (hw : 1 ≤ w) (hs : 1/2 ≤ s) :
    0 ≤ pyRound ((w : ℚ) * s) ∧
    |pyRound (((pyRound ((w : ℚ) * s) : ℤ) : ℚ) / s) - (w : ℤ)| ≤ 1 := by
  have hs0 : (0 : ℚ) < s := by linarith
  have hw1 : (1 : ℚ) ≤ (w : ℚ) := by exact_mod_cast hw
  have h1 := abs_pyRound_sub_le ((w : ℚ) * s)
  set W : ℤ := pyRound ((w : ℚ) * s) with hWdef
  have hws : (1 : ℚ) / 2 ≤ (w : ℚ) * s := by nlinarith
  have hWnn : 0 ≤ W := pyRound_nonneg_of_half_le (by nlinarith)
  refine ⟨hWnn, ?_⟩
  have h2 := abs_pyRound_sub_le ((W : ℚ) / s)
  set t : ℤ := pyRound ((W : ℚ) / s) with htdef
  have hdiv : |(W : ℚ) / s - (w : ℚ)| ≤ 1 := by
    have hrw : (W : ℚ) / s - (w : ℚ) = ((W : ℚ) - (w : ℚ) * s) / s := by
      field_simp
      ring
    rw [hrw, abs_div, abs_of_pos hs0, div_le_one hs0]
    calc |(W : ℚ) - (w : ℚ) * s| ≤ 1 / 2 := h1
      _ ≤ s := hs
  have hkey : |(t : ℚ) - (w : ℚ)| ≤ 3 / 2 := by
    have e1 : (t : ℚ) - (w : ℚ) = ((t : ℚ) - (W : ℚ) / s) + ((W : ℚ) / s - (w : ℚ)) := by
      ring
    calc |(t : ℚ) - (w : ℚ)|
        = |((t : ℚ) - (W : ℚ) / s) + ((W : ℚ) / s - (w : ℚ))| := by rw [e1]
      _ ≤ |(t : ℚ) - (W : ℚ) / s| + |(W : ℚ) / s - (w : ℚ)| := abs_add _ _
      _ ≤ 1 / 2 + 1 := add_le_add h2 hdiv
      _ = 3 / 2 := by norm_num
  have hcast : |((t - (w : ℤ) : ℤ) : ℚ)| ≤ 3 / 2 := by
    push_cast
    exact hkey
  have hlt : |t - (w : ℤ)| < 2 := by
    by_contra hcon
    push_neg at hcon
    have : ((2 : ℤ) : ℚ) ≤ |((t - (w : ℤ) : ℤ) : ℚ)| := by
      rw [← Int.cast_abs]
      exact_mod_cast hcon
    norm_num at this
    linarith
  omega

/-! ### State-transition helper lemmas -/

theorem minsize_fst (st : WindowState) (w h : ℤ) :
    (minsize st w h).1 = { st with
      minWidth := w
      minHeight := h
      currentWidth := max st.currentWidth w
      currentHeight := max st.currentHeight h } := by
  unfold minsize
  dsimp only
  split_ifs with ha hb hb <;> simp_all [WindowState.mk.injEq] <;> omega

theorem maxsize_fst (st : WindowState) (w h : ℤ) :
    (maxsize st w h).1 = { st with
      maxWidth := w
      maxHeight := h
      currentWidth := min st.currentWidth w
      currentHeight := min st.currentHeight h } := by
  unfold maxsize
  dsimp only
  split_ifs with ha hb hb <;> simp_all [WindowState.mk.injEq] <;> omega

theorem minsize_snd (st : WindowState) (w h : ℤ) :
    (minsize st w h).2 = TkCall.tkMinsize (applyWindowScaling st.windowScaling w)
      (applyWindowScaling st.windowScaling h) := by
  unfold minsize
  dsimp only
  split_ifs <;> rfl

theorem parse_shape (g : String) :
    (∃ w h x y, parseGeometryString g = (some w, some h, some x, some y)) ∨
    (∃ w h, parseGeometryString g = (some w, some h, none, none)) ∨
    (∃ x y, parseGeometryString g = (none, none, some x, some y)) ∨
    parseGeometryString g = (none, none, none, none) := by
  rcases hs : (parseSizePart g.data).1 with _ | wh <;>
    rcases hp : parsePosition (parseSizePart g.data).2 with _ | xy <;>
      simp only [parseGeometryString, hs, hp]
  · exact Or.inr (Or.inr (Or.inr trivial))
  · exact Or.inr (Or.inr (Or.inl ⟨xy.1, xy.2, rfl⟩))
  · exact Or.inr (Or.inl ⟨wh.1, wh.2, rfl⟩)
  · exact Or.inl ⟨wh.1, wh.2, xy.1, xy.2, rfl⟩

/-! ### Claim C1 -/

/-- C1 (code bug): for a realized window whose captured prior state is
iconified, the titlebar color setter nevertheless hides the window before the
native attribute change — the guard `state != "iconic" or state != "withdrawn"`
in the source is a tautology, so `withdraw()` always runs — while the restore
step does re-apply the iconified state.  This theorem evaluates the modelled
action sequence at that failing input, exhibiting the `withdrawAct` before the
attribute change. -/
theorem titlebar_iconic_hides_window :
    windowsSetTitlebarColor true "iconic" "dark"
      = [TitlebarAction.withdrawAct, TitlebarAction.setAttribute 1,
         TitlebarAction.iconifyAct] := by
  decide

/-! ### Claim C2 -/

/-- C2 counterexample: at w = h = 3 and scale s = 1/10 > 0, the physical form
is "0x0" and reversing it yields 0, which differs from 3 by more than the
claimed tolerance of ±1. -/
theorem geometry_roundtrip_counterexample :
    applyGeometryScaling (1/10) (sizeGeometryString 3 3) = some "0x0" ∧
    reverseGeometryScaling (1/10) "0x0" = some "0x0" ∧
    parseGeometryString "0x0" = (some 0, some 0, none, none) ∧
    ¬(|(0 : ℤ) - 3| ≤ 1) := by
  have hr1 : pyRound (((3 : ℕ) : ℚ) * (1/10)) = 0 := by unfold pyRound; norm_num
  have hr2 : pyRound (((0 : ℤ) : ℚ) / (1/10)) = 0 := by unfold pyRound; norm_num
  refine ⟨?_, ?_, by decide, by decide⟩
  · rw [applyGeometryScaling_sizeString, hr1]
    decide
  · rw [show ("0x0" : String) = fmtSize 0 0 from by decide,
      reverseGeometryScaling_fmtSize (1/10) 0 0 le_rfl le_rfl, hr2]

/-- C2 (amended): for positive integers w, h and every scale s ≥ 1/2,
converting the size-only geometry string to physical form with
`_apply_geometry_scaling` and back with `_reverse_geometry_scaling` yields
width and height within ±1 of the originals.  (For arbitrarily small positive
scales the claim fails, see the counterexample.) -/
theorem geometry_roundtrip_within_one (w h : ℕ) (s : ℚ)
    (hw : 1 ≤ w) (hh : 1 ≤ h) (hs : 1/2 ≤ s) :
    ∃ gPhys gLog w2 h2,
      applyGeometryScaling s (sizeGeometryString w h) = some gPhys ∧
      reverseGeometryScaling s gPhys = some gLog ∧
      parseGeometryString gLog = (some w2, some h2, none, none) ∧
      |w2 - (w : ℤ)| ≤ 1 ∧ |h2 - (h : ℤ)| ≤ 1 := by
  have hs0 : (0 : ℚ) < s := by linarith
  obtain ⟨hWnn, hwbound⟩ := pyRound_mul_div_roundtrip w s hw hs
  obtain ⟨hHnn, hhbound⟩ := pyRound_mul_div_roundtrip h s hh hs
  refine ⟨fmtSize (pyRound ((w : ℚ) * s)) (pyRound ((h : ℚ) * s)),
    fmtSize (pyRound (((pyRound ((w : ℚ) * s) : ℤ) : ℚ) / s))
            (pyRound (((pyRound ((h : ℚ) * s) : ℤ) : ℚ) / s)),
    pyRound (((pyRound ((w : ℚ) * s) : ℤ) : ℚ) / s),
    pyRound (((pyRound ((h : ℚ) * s) : ℤ) : ℚ) / s),
    applyGeometryScaling_sizeString s w h,
    reverseGeometryScaling_fmtSize s _ _ hWnn hHnn,
    parseGeometryString_fmtSize _ _ ?_ ?_, hwbound, hhbound⟩
  · exact pyRound_nonneg_of_half_le (div_nonneg (by exact_mod_cast hWnn) (le_of_lt hs0))
  · exact pyRound_nonneg_of_half_le (div_nonneg (by exact_mod_cast hHnn) (le_of_lt hs0))

theorem geometry_roundtrip_within_one_witness :
    ((1 ≤ 3 ∧ 1 ≤ 4 ∧ (1/2 : ℚ) ≤ 2) ∧
      ∃ gPhys gLog w2 h2,
        applyGeometryScaling 2 (sizeGeometryString 3 4) = some gPhys ∧
        reverseGeometryScaling 2 gPhys = some gLog ∧
        parseGeometryString gLog = (some w2, some h2, none, none) ∧
        |w2 - (3 : ℤ)| ≤ 1 ∧ |h2 - (4 : ℤ)| ≤ 1) :=
  ⟨⟨by decide, by decide, by norm_num⟩,
    geometry_roundtrip_within_one 3 4 2 (by decide) (by decide) (by norm_num)⟩

/-! ### Claim C3 -/

/-- C3 counterexample: the position-only geometry string "-100-50" is not
returned verbatim by the physical scaling transform; it is re-emitted as
"+-100+-50". -/
theorem position_scaling_counterexample :
    applyGeometryScaling 1 "-100-50" = some "+-100+-50" ∧
    ¬(applyGeometryScaling 1 "-100-50" = some "-100-50") := by
  refine ⟨by decide, by decide⟩

/-- C3 (amended): for every position-only geometry string in the canonical
form `"+{x}+{y}"` (for any integers x and y, so including negative offsets
written as `"+-100+-50"`), the physical scaling transform is the identity and
preserves the values and signs of x and y; position-only strings in other
spellings (such as `"-100-50"`) keep their x/y values and signs but are
re-emitted in the canonical form. -/
theorem position_scaling_identity (s : ℚ) (x y : ℤ) :
    applyGeometryScaling s (fmtPos x y) = some (fmtPos x y) :=
  applyGeometryScaling_fmtPos s x y

/-! ### Claim C4 -/

/-- C4 counterexample: starting from the freshly initialized window state,
`minsize(2000000, 2000000)` raises the current width above the stored maximum
width of 1,000,000, violating the claimed invariant. -/
theorem size_invariant_counterexample :
    ¬ sizeInvariant (minsize (initialWindowState 1) 2000000 2000000).1 := by
  decide

/-- C4 (amended): the invariant `min ≤ current ≤ max` is preserved by every
mutating operation (minsize, maxsize, geometry) provided a newly set minimum
does not exceed the stored maximum and a newly set maximum does not fall
below the stored minimum; without that proviso the clamping in the source
restores only the bound being set (see the counterexample). -/
theorem size_invariant_preserved (st st2 : WindowState) (op : WinOp) (c : TkCall)
    (hinv : sizeInvariant st) (hcomp : opCompatible st op)
    (happ : applyOp st op = some (st2, c)) : sizeInvariant st2 := by
  obtain ⟨h1, h2, h3, h4⟩ := hinv
  cases op with
  | opMinsize w h =>
    obtain ⟨hcw, hch⟩ := hcomp
    simp only [applyOp, Option.some.injEq] at happ
    have hst : st2 = (minsize st w h).1 := by rw [happ]
    rw [hst, minsize_fst]
    refine ⟨?_, ?_, ?_, ?_⟩ <;> simp <;> omega
  | opMaxsize w h =>
    obtain ⟨hcw, hch⟩ := hcomp
    simp only [applyOp, Option.some.injEq] at happ
    have hst : st2 = (maxsize st w h).1 := by rw [happ]
    rw [hst, maxsize_fst]
    refine ⟨?_, ?_, ?_, ?_⟩ <;> simp <;> omega
  | opGeometry g =>
    simp only [applyOp, geometrySet] at happ
    rcases ha : applyGeometryScaling st.windowScaling g with _ | phys <;>
      rw [ha] at happ
    · simp at happ
    · simp only [Option.some.injEq] at happ
      rcases hp1 : (parseGeometryString g).1 with _ | wv <;>
        rcases hp2 : (parseGeometryString g).2.1 with _ | hv <;>
        rw [hp1, hp2] at happ <;>
        simp only [Prod.mk.injEq] at happ <;>
        obtain ⟨hst, hc⟩ := happ <;>
        rw [← hst]
      · exact ⟨h1, h2, h3, h4⟩
      · exact ⟨h1, h2, h3, h4⟩
      · exact ⟨h1, h2, h3, h4⟩
      · refine ⟨?_, ?_, ?_, ?_⟩ <;> simp <;> omega

/-- The state reached from the initial state by `minsize(700, 700)`. -/
def clampedWitnessState : WindowState :=
  ⟨700, 700, 700, 700, 1000000, 1000000, 1, false⟩

theorem applyOp_witness_computation :
    applyOp (initialWindowState 1) (WinOp.opMinsize 700 700)
      = some (clampedWitnessState, TkCall.tkMinsize 700 700) := by
  simp only [applyOp, Option.some.injEq]
  refine Prod.ext ?_ ?_
  · rw [minsize_fst]
    decide
  · rw [minsize_snd]
    simp only [initialWindowState]
    rw [applyWindowScaling_eq_of_mul_eq 1 700 700 (by norm_num)]

theorem size_invariant_preserved_witness :
    (sizeInvariant (initialWindowState 1) ∧
      opCompatible (initialWindowState 1) (WinOp.opMinsize 700 700) ∧
      applyOp (initialWindowState 1) (WinOp.opMinsize 700 700)
        = some (clampedWitnessState, TkCall.tkMinsize 700 700)) ∧
    sizeInvariant clampedWitnessState :=
  ⟨⟨by decide, by decide, applyOp_witness_computation⟩,
    size_invariant_preserved (initialWindowState 1) clampedWitnessState
      (WinOp.opMinsize 700 700) (TkCall.tkMinsize 700 700)
      (by decide) (by decide) applyOp_witness_computation⟩

/-! ### Claim C5 -/

/-- C5 counterexample: the unparseable geometry string "abc" passed to the
geometry setter raises (modelled as `none`, the `TypeError` from
`round(None * scaling)`): the setter is not exception-free on every
unparseable string. -/
theorem malformed_geometry_counterexample :
    geometry (initialWindowState 1) (some "abc") "" = none := by
  decide

/-- C5 (amended): for every geometry string whose parse yields at least one of
the size pair or the position pair (so in particular for malformed trailing
garbage after a valid part), the geometry setter raises no exception; a
missing size pair leaves the stored current size untouched (no-op on that
axis).  Only a string where both parts fail to parse (e.g. "abc") raises a
`TypeError` inside the scaling step — see the counterexample. -/
theorem malformed_geometry_no_raise (st : WindowState) (g tk : String)
    (hp : ¬((parseGeometryString g).1 = none) ∨ ¬((parseGeometryString g).2.2.1 = none)) :
    ∃ st2 c, geometry st (some g) tk = some (GeometryResult.set st2 c) ∧
      ((parseGeometryString g).1 = none →
        st2.currentWidth = st.currentWidth ∧ st2.currentHeight = st.currentHeight) := by
  rcases parse_shape g with ⟨w, h, x, y, hg⟩ | ⟨w, h, hg⟩ | ⟨x, y, hg⟩ | hg
  · obtain ⟨r, happly⟩ : ∃ r, applyGeometryScaling st.windowScaling g = some r := by
      simp only [applyGeometryScaling, hg]
      simp
    refine ⟨{ st with
        currentWidth := max st.minWidth (min w st.maxWidth)
        currentHeight := max st.minHeight (min h st.maxHeight) },
      TkCall.tkGeometry r, ?_, ?_⟩
    · simp only [geometry, geometrySet, happly, hg]
    · intro hnone
      rw [hg] at hnone
      simp at hnone
  · obtain ⟨r, happly⟩ : ∃ r, applyGeometryScaling st.windowScaling g = some r := by
      simp only [applyGeometryScaling, hg]
      simp
    refine ⟨{ st with
        currentWidth := max st.minWidth (min w st.maxWidth)
        currentHeight := max st.minHeight (min h st.maxHeight) },
      TkCall.tkGeometry r, ?_, ?_⟩
    · simp only [geometry, geometrySet, happly, hg]
    · intro hnone
      rw [hg] at hnone
      simp at hnone
  · obtain ⟨r, happly⟩ : ∃ r, applyGeometryScaling st.windowScaling g = some r := by
      simp only [applyGeometryScaling, hg]
      simp
    refine ⟨st, TkCall.tkGeometry r, ?_, fun _ => ⟨rfl, rfl⟩⟩
    simp only [geometry, geometrySet, happly, hg]
  · rcases hp with hp | hp <;> rw [hg] at hp <;> simp at hp

theorem malformed_geometry_no_raise_witness :
    (¬((parseGeometryString "300x200abc").1 = none) ∨
      ¬((parseGeometryString "300x200abc").2.2.1 = none)) ∧
    (∃ st2 c, geometry (initialWindowState 1) (some "300x200abc") ""
        = some (GeometryResult.set st2 c) ∧
      ((parseGeometryString "300x200abc").1 = none →
        st2.currentWidth = (initialWindowState 1).currentWidth ∧
        st2.currentHeight = (initialWindowState 1).currentHeight)) :=
  ⟨by decide,
    malformed_geometry_no_raise (initialWindowState 1) "300x200abc" "" (by decide)⟩

/-! ### Claim C6 -/

/-- C6 counterexample: the empty geometry string is not `None`, so it takes
the set branch, where the all-`None` parse raises (`TypeError`, modelled as
`none`); the empty string does not query the current geometry. -/
theorem empty_geometry_counterexample :
    geometry (initialWindowState 1) (some "") "600x500+0+0" = none := by
  decide

/-- C6 (amended): the query form of the geometry operation is the absent
(`None`) argument, not the empty string: with no argument it returns the
base toolkit's reported geometry reverse-scaled to logical form, sets
nothing, and issues no physical call. -/
theorem geometry_query_none (st : WindowState) (tk : String) :
    geometry st none tk
      = (reverseGeometryScaling st.windowScaling tk).map GeometryResult.queried := by
  unfold geometry
  rcases h : reverseGeometryScaling st.windowScaling tk with _ | out <;> simp [h]

/-! ### Claim C7 -/

/-- C7 (confirmed): when the current logical size is strictly below the new
minimum (w, h), `minsize` clamps the current size up to exactly (w, h), and
the physical minsize call issued to the base toolkit carries w and h scaled
by the window scaling factor (`int(w * scaling)`, exact whenever the product
is integral, as in the spec's `200 * scale` example). -/
theorem minsize_clamps_and_scales (st : WindowState) (w h mw mh : ℤ)
    (hw : st.currentWidth < w) (hh : st.currentHeight < h)
    (hmw : (w : ℚ) * st.windowScaling = ((mw : ℤ) : ℚ))
    (hmh : (h : ℚ) * st.windowScaling = ((mh : ℤ) : ℚ)) :
    (minsize st w h).1.currentWidth = w ∧ (minsize st w h).1.currentHeight = h ∧
    (minsize st w h).2 = TkCall.tkMinsize mw mh := by
  refine ⟨?_, ?_, ?_⟩
  · rw [minsize_fst]
    simp
    omega
  · rw [minsize_fst]
    simp
    omega
  · rw [minsize_snd, applyWindowScaling_eq_of_mul_eq _ _ _ hmw,
      applyWindowScaling_eq_of_mul_eq _ _ _ hmh]

/-- The state of a window at scale 2.0 whose current logical size has been
brought down to 50x50. -/
def smallWindowState : WindowState :=
  ⟨50, 50, 0, 0, 1000000, 1000000, 2, false⟩

theorem minsize_clamps_and_scales_witness :
    (smallWindowState.currentWidth < 200 ∧ smallWindowState.currentHeight < 200 ∧
      (200 : ℚ) * smallWindowState.windowScaling = ((400 : ℤ) : ℚ)) ∧
    ((minsize smallWindowState 200 200).1.currentWidth = 200 ∧
      (minsize smallWindowState 200 200).1.currentHeight = 200 ∧
      (minsize smallWindowState 200 200).2 = TkCall.tkMinsize 400 400) :=
  ⟨⟨by decide, by decide, by norm_num [smallWindowState]⟩,
    minsize_clamps_and_scales smallWindowState 200 200 400 400 (by decide) (by decide)
      (by norm_num [smallWindowState]) (by norm_num [smallWindowState])⟩

/-! ### Claim C8 -/

/-- C8 (confirmed): on a scale change to 2.0 with current logical size
(600, 500), the transient forcing step issues physical minsize, maxsize and
geometry calls that all use the size (1200, 1000) — the current size times
the new scale — and the deferred `_set_scaled_min_max` correction re-applies
the original logical min/max bounds multiplied by 2. -/
theorem scale_change_forced_and_deferred (st : WindowState)
    (hcw : st.currentWidth = 600) (hch : st.currentHeight = 500)
    (_hs : st.windowScaling = 1) :
    (setScaling st 2).forcedCalls
      = [TkCall.tkMinsize 1200 1000, TkCall.tkMaxsize 1200 1000,
         TkCall.tkGeometry "1200x1000"] ∧
    setScaledMinMax (setScaling st 2).newState
      = [TkCall.tkMinsize (2 * st.minWidth) (2 * st.minHeight),
         TkCall.tkMaxsize (2 * st.maxWidth) (2 * st.maxHeight)] := by
  have e600 : applyWindowScaling 2 (600 : ℤ) = 1200 :=
    applyWindowScaling_eq_of_mul_eq 2 600 1200 (by norm_num)
  have e500 : applyWindowScaling 2 (500 : ℤ) = 1000 :=
    applyWindowScaling_eq_of_mul_eq 2 500 1000 (by norm_num)
  have emw : applyWindowScaling 2 st.minWidth = 2 * st.minWidth :=
    applyWindowScaling_eq_of_mul_eq 2 _ _ (by push_cast; ring)
  have emh : applyWindowScaling 2 st.minHeight = 2 * st.minHeight :=
    applyWindowScaling_eq_of_mul_eq 2 _ _ (by push_cast; ring)
  have exw : applyWindowScaling 2 st.maxWidth = 2 * st.maxWidth :=
    applyWindowScaling_eq_of_mul_eq 2 _ _ (by push_cast; ring)
  have exh : applyWindowScaling 2 st.maxHeight = 2 * st.maxHeight :=
    applyWindowScaling_eq_of_mul_eq 2 _ _ (by push_cast; ring)
  constructor
  · simp only [setScaling, hcw, hch, e600, e500]
    rw [show fmtSize 1200 1000 = "1200x1000" from by decide]
  · simp only [setScaledMinMax, setScaling, emw, emh, exw, exh]

theorem scale_change_forced_and_deferred_witness :
    ((initialWindowState 1).currentWidth = 600 ∧
      (initialWindowState 1).currentHeight = 500 ∧
      (initialWindowState 1).windowScaling = 1) ∧
    ((setScaling (initialWindowState 1) 2).forcedCalls
        = [TkCall.tkMinsize 1200 1000, TkCall.tkMaxsize 1200 1000,
           TkCall.tkGeometry "1200x1000"] ∧
      setScaledMinMax (setScaling (initialWindowState 1) 2).newState
        = [TkCall.tkMinsize (2 * (initialWindowState 1).minWidth)
             (2 * (initialWindowState 1).minHeight),
           TkCall.tkMaxsize (2 * (initialWindowState 1).maxWidth)
             (2 * (initialWindowState 1).maxHeight)]) :=
  ⟨⟨by decide, by decide, by decide⟩,
    scale_change_forced_and_deferred (initialWindowState 1)
      (by decide) (by decide) (by decide)⟩

/-! ### Claim C9 -/

theorem lookup_ne_none_of_mem {V : Type} (l : List (String × V)) (k : String) (v : V)
    (h : (k, v) ∈ l) : l.lookup k ≠ none := by
  induction l with
  | nil => cases h
  | cons p t ih =>
    obtain ⟨pk, pv⟩ := p
    rcases List.mem_cons.mp h with heq | hmem
    · rw [← heq]
      simp [List.lookup]
    · simp only [List.lookup]
      rcases hb : (k == pk) with _ | _
      · simpa using ih hmem
      · simp

theorem isEmpty_eq_false_of_mem {α : Type} {l : List α} {a : α} (h : a ∈ l) :
    l.isEmpty = false := by
  cases l with
  | nil => cases h
  | cons b t => rfl

/-- C9 (confirmed, spec-modelled): a `configure` call containing an option
key that is neither `fg_color` nor in the base toolkit's recognized configure
option set fails with an error naming the unrecognized option, while
recognized options are passed through to the base toolkit.  The helpers
`pop_from_dict_by_set` / `check_kwargs_empty` are modelled from the spec, as
`utility_functions.py` is not among the sources. -/
theorem configure_option_validation {V : Type} (st : CTkConfig V) :
    (∀ (kwargs : List (String × V)) (key : String) (v : V),
        (key, v) ∈ kwargs → ¬(key = "fg_color") →
        ¬(validTkConfigureArguments.contains key = true) →
        ∃ errKeys, configure st kwargs = Except.error errKeys ∧ key ∈ errKeys) ∧
    (∀ kwargs : List (String × V),
        (∀ p ∈ kwargs, p.1 = "fg_color" ∨ validTkConfigureArguments.contains p.1 = true) →
        ∃ st2 passed, configure st kwargs = Except.ok (st2, passed) ∧
          ∀ p ∈ kwargs, validTkConfigureArguments.contains p.1 = true → p ∈ passed) := by
  constructor
  · intro kwargs key v hmem hfg hvalid
    have hvf : validTkConfigureArguments.contains key = false := by
      cases hcv : validTkConfigureArguments.contains key
      · rfl
      · exact absurd hcv hvalid
    rcases hlk : kwargs.lookup "fg_color" with _ | cval <;>
      simp only [configure, hlk]
    · have hmem2 : (key, v) ∈ kwargs.filter
          (fun p : String × V => !validTkConfigureArguments.contains p.1) :=
        List.mem_filter.mpr ⟨hmem, by simpa using hvalid⟩
      rw [isEmpty_eq_false_of_mem hmem2]
      simp only [Bool.false_eq_true, if_false]
      exact ⟨_, rfl, List.mem_map.mpr ⟨(key, v), hmem2, rfl⟩⟩
    · have hmem1 : (key, v) ∈ kwargs.filter (fun p : String × V => p.1 ≠ "fg_color") :=
        List.mem_filter.mpr ⟨hmem, by simp [hfg]⟩
      have hmem2 : (key, v) ∈ (kwargs.filter (fun p : String × V => p.1 ≠ "fg_color")).filter
          (fun p : String × V => !validTkConfigureArguments.contains p.1) :=
        List.mem_filter.mpr ⟨hmem1, by simpa using hvalid⟩
      rw [isEmpty_eq_false_of_mem hmem2]
      simp only [Bool.false_eq_true, if_false]
      exact ⟨_, rfl, List.mem_map.mpr ⟨(key, v), hmem2, rfl⟩⟩
  · intro kwargs hall
    rcases hlk : kwargs.lookup "fg_color" with _ | cval <;>
      simp only [configure, hlk]
    · have hnofg : ∀ p ∈ kwargs, ¬(p.1 = "fg_color") := by
        rintro ⟨pk, pv⟩ hp hfgp
        exact lookup_ne_none_of_mem kwargs "fg_color" pv (by rw [← hfgp]; exact hp) hlk
      have hempty : (kwargs.filter
          (fun p : String × V => !validTkConfigureArguments.contains p.1)) = [] := by
        rw [List.filter_eq_nil_iff]
        intro p hp
        rcases hall p hp with hfg | hc
        · exact absurd hfg (hnofg p hp)
        · simpa using hc
      rw [hempty]
      refine ⟨st, _, rfl, ?_⟩
      intro p hp hc
      exact List.mem_filter.mpr ⟨hp, hc⟩
    · have hempty : ((kwargs.filter (fun p : String × V => p.1 ≠ "fg_color")).filter
          (fun p : String × V => !validTkConfigureArguments.contains p.1)) = [] := by
        rw [List.filter_eq_nil_iff]
        intro p hp
        obtain ⟨hpmem, hpne⟩ := List.mem_filter.mp hp
        rcases hall p hpmem with hfg | hc
        · simp [hfg] at hpne
        · simpa using hc
      rw [hempty]
      refine ⟨_, _, rfl, ?_⟩
      intro p hp hc
      refine List.mem_filter.mpr ⟨List.mem_filter.mpr ⟨hp, ?_⟩, hc⟩
      have hne : ¬(p.1 = "fg_color") := by
        intro hfg
        rw [hfg] at hc
        exact absurd hc (by decide)
      simp [hne]

theorem configure_option_validation_witness :
    ((("badopt", "x") ∈ ([("badopt", "x")] : List (String × String)) ∧
        ¬(("badopt" : String) = "fg_color") ∧
        ¬(validTkConfigureArguments.contains "badopt" = true)) ∧
      ∃ errKeys, configure (V := String) ⟨"#000000"⟩ [("badopt", "x")]
          = Except.error errKeys ∧ "badopt" ∈ errKeys) ∧
    ((∀ p ∈ ([("width", "5")] : List (String × String)),
        p.1 = "fg_color" ∨ validTkConfigureArguments.contains p.1 = true) ∧
      ∃ st2 passed, configure (V := String) ⟨"#000000"⟩ [("width", "5")]
          = Except.ok (st2, passed) ∧
        ∀ p ∈ ([("width", "5")] : List (String × String)),
          validTkConfigureArguments.contains p.1 = true → p ∈ passed) :=
  ⟨⟨⟨by decide, by decide, by decide⟩,
      (configure_option_validation (V := String) ⟨"#000000"⟩).1
        [("badopt", "x")] "badopt" "x" (by decide) (by decide) (by decide)⟩,
    ⟨by decide,
      (configure_option_validation (V := String) ⟨"#000000"⟩).2
        [("width", "5")] (by decide)⟩⟩

/-! ### Claim C10 -/

/-- C10 (confirmed): for every value c (of any type, so in particular single
colors and light/dark pairs), configuring `fg_color := c` and then querying
`cget("fg_color")` returns exactly the stored value c — not a mode-resolved
concrete color — and the query is answered from the window's own state, never
delegated to the base toolkit. -/
theorem fg_color_configure_cget {V : Type} (st : CTkConfig V) (c : V) :
    ∃ st2, configure st [("fg_color", c)] = Except.ok (st2, []) ∧
      cget st2 "fg_color" = CgetResult.stored c := by
  refine ⟨⟨c⟩, ?_, by simp [cget]⟩
  simp [configure, List.lookup, List.filter, validTkConfigureArguments]

end CTk
